import Mathlib

/-!
# Verification of the webinar attendance counter (`app.py`)

Shallow embedding of the attendance-counting engine, the settings store and
the job pipeline of `app.py`, together with theorems settling the frozen
claims about its specification.

Conventions:
* pandas timestamps are modelled as a calendar date (`DateT`, an opaque
  `(year, month, day)` triple ordered lexicographically) together with a
  second-of-day counter (`Timestamp`).  All arithmetic the program performs
  stays within one day (the `+ 59 seconds` offset applied to an `HH:MM`
  base never crosses midnight), so no calendar arithmetic is needed.
* string cells are Lean `String`s; `str.strip` / `str.lower` / `str.title`
  are re-implemented over the character list so that every definition is
  kernel-evaluable (`pyStrip`, `pyLower`, `pyTitle`).
* a pandas `DataFrame` is a header list plus positional rows (`Table`).
-/

/-- Python `str.strip()` (whitespace at both ends removed). -/
def pyStrip (s : String) : String :=
  ⟨((s.data.dropWhile Char.isWhitespace).reverse.dropWhile Char.isWhitespace).reverse⟩

/-- Python `str.lower()` (ASCII case folding, as used on the data here). -/
def pyLower (s : String) : String :=
  ⟨s.data.map Char.toLower⟩

/-- Helper for `pyTitle`: the boolean records whether the previous character
was alphabetic (i.e. whether we are inside a word). -/
def pyTitleGo : List Char → Bool → List Char
  | [], _ => []
  | c :: cs, prev =>
    if c.isAlpha then
      (if prev then c.toLower else c.toUpper) :: pyTitleGo cs true
    else
      c :: pyTitleGo cs false

/-- Python `str.title()`: first letter of every alphabetic run uppercased,
the rest lowercased (`"join time"` becomes `"Join Time"`). -/
def pyTitle (s : String) : String :=
  ⟨pyTitleGo s.data false⟩

/-- Split a character list on a separator character, `str.split(sep)` style:
`"a:b:".split(":") = ["a", "b", ""]`. -/
def splitOnChar (sep : Char) : List Char → List (List Char)
  | [] => [[]]
  | c :: cs =>
    match splitOnChar sep cs, decEq c sep with
    | r, isTrue _ => [] :: r
    | [], isFalse _ => [[c]]
    | g :: gs, isFalse _ => (c :: g) :: gs

/-- Numeric value of a digit string. -/
def digitsVal (cs : List Char) : Nat :=
  cs.foldl (fun a c => a * 10 + (c.toNat - 48)) 0

/-- `datetime.strptime(s, "%H:%M")`, the validation used by `save_settings`
and by the per-timepoint parse in `process_file`.  CPython compiles `%H` to
the regex `(2[0-3]|[0-1]\d|\d)` and `%M` to `([0-5]\d|\d)`, anchored to the
whole string: one- or two-digit hour `0..23` and minute `0..59`. -/
def parseHM (s : String) : Option (Nat × Nat) :=
  match splitOnChar ':' s.data with
  | [h, m] =>
    if h.all Char.isDigit ∧ m.all Char.isDigit ∧
        1 ≤ h.length ∧ h.length ≤ 2 ∧ 1 ≤ m.length ∧ m.length ≤ 2 ∧
        digitsVal h ≤ 23 ∧ digitsVal m ≤ 59 then
      some (digitsVal h, digitsVal m)
    else none
  | _ => none

/-- A calendar date, ordered lexicographically (year, month, day). -/
structure DateT where
  year : Nat
  month : Nat
  day : Nat
deriving DecidableEq

/-- Chronological (= lexicographic) order on dates, as a boolean. -/
def DateT.leB (a b : DateT) : Bool :=
  if a.year = b.year then
    if a.month = b.month then decide (a.day ≤ b.day)
    else decide (a.month < b.month)
  else decide (a.year < b.year)

/-- A pandas timestamp: a calendar date plus a second-of-day counter. -/
structure Timestamp where
  date : DateT
  sec : Nat
deriving DecidableEq

/-- Order on timestamps: lexicographic on (date, second-of-day);
this is how pandas compares `Join Time <= check_dt` etc. -/
def Timestamp.leB (a b : Timestamp) : Bool :=
  if a.date = b.date then decide (a.sec ≤ b.sec)
  else DateT.leB a.date b.date

/-- Modelled library behaviour: `pd.to_datetime(s, dayfirst=True,
errors="coerce")` restricted to the `"D/M/YYYY H:MM"` shape the ingested
sheets use.  `dayfirst=True` makes the first slash-field the day and the
second the month, so `"03/04/2024"` is 3 April.  Any other shape coerces to
`NaT`, i.e. `none`. -/
def parseTs (s : String) : Option Timestamp :=
  match splitOnChar ' ' s.data with
  | [datePart, timePart] =>
    match splitOnChar '/' datePart, parseHM ⟨timePart⟩ with
    | [d, m, y], some (hh, mm) =>
      if d.all Char.isDigit ∧ m.all Char.isDigit ∧ y.all Char.isDigit ∧
          1 ≤ digitsVal d ∧ digitsVal d ≤ 31 ∧
          1 ≤ digitsVal m ∧ digitsVal m ≤ 12 then
        some ⟨⟨digitsVal y, digitsVal m, digitsVal d⟩, hh * 3600 + mm * 60⟩
      else none
    | _, _ => none
  | _ => none

/-- `str(date)` in Python: zero-padded decimal of width `w`. -/
def padNum (w : Nat) (n : Nat) : String :=
  let s := toString n
  ⟨List.replicate (w - s.length) '0' ++ s.data⟩

/-- `str(d)` for a `datetime.date`: `"YYYY-MM-DD"`. -/
def showDate (d : DateT) : String :=
  padNum 4 d.year ++ "-" ++ padNum 2 d.month ++ "-" ++ padNum 2 d.day

/-- A pandas `DataFrame` handed over by the (excluded) file-decoding
collaborator: header labels plus positional rows of string cells. -/
structure Table where
  cols : List String
  rows : List (List String)
deriving DecidableEq

/-- `df[c]` for one row: the cell under header `c` (first matching header,
empty if absent — pandas guarantees presence for the columns accessed). -/
def getCell (cols : List String) (row : List String) (c : String) : String :=
  match cols.findIdx? (· == c) with
  | some i => row.getD i ""
  | none => ""

/-- `normalize_columns`: `df.columns.str.strip().str.title()`. -/
def normalize_columns (tbl : Table) : Table :=
  ⟨tbl.cols.map (fun c => pyTitle (pyStrip c)), tbl.rows⟩

/-- Seconds-of-day denoted by an `HH:MM` timeline entry
(`datetime.strptime(time_str, "%H:%M").time()`); timeline entries always
parse because the settings store validated them, so the `none` default is
never reached on the program's inputs. -/
def secsOfHM (t : String) : Nat :=
  match parseHM t with
  | some (h, m) => h * 3600 + m * 60
  | none => 0

/-- The check instant for timeline entry `t` on `report_date`
(lines 151-160 of `app.py`): `base_dt = datetime.combine(report_date,
t_val)`, then `base_dt + timedelta(seconds=59)` when
`time_str == timeline[0]` — a comparison of string *values* against the
first element — and `base_dt` otherwise.  The 59-second add never crosses
midnight (an `HH:MM` base is at most 23:59:00). -/
def checkInstant (timeline : List String) (d : DateT) (t : String) : Timestamp :=
  if timeline.head? = some t then ⟨d, secsOfHM t + 59⟩ else ⟨d, secsOfHM t⟩

/-- One attendee row after parsing and dedup-key resolution: the parsed
`Join Time`, `Leave Time` and the resolved `clean_email` identity key.
`Event_Date` is `join.date` (the code sets it to `Join Time`'s date). -/
structure ARow where
  join : Timestamp
  leave : Timestamp
  key : String
deriving DecidableEq

/-- Row presence at an instant (line 162):
`(day_df['Join Time'] <= check_dt) & (day_df['Leave Time'] >= check_dt)`. -/
def isActive (check : Timestamp) (r : ARow) : Bool :=
  Timestamp.leB r.join check && Timestamp.leB check r.leave

/-- The occupancy count at a check instant (lines 162-163):
`active_rows['clean_email'].nunique()` — the number of distinct resolved
keys among the rows present at `check`. -/
def countAt (rows : List ARow) (check : Timestamp) : Nat :=
  (((rows.filter (isActive check)).map ARow.key).dedup).length

/-- Dictionary lookup `annotations[time_str]` guarded by
`time_str in annotations`. -/
def lookupAnn (annotations : List (String × String)) (t : String) : Option String :=
  (annotations.find? (fun p => p.1 == t)).map Prod.snd

/-- Display value for one timeline entry (lines 151-168): count the rows
present at the check instant and overlay the annotation label if any. -/
def displayAt (rows : List ARow) (annotations : List (String × String))
    (timeline : List String) (d : DateT) (t : String) : String :=
  let c := countAt rows (checkInstant timeline d t)
  match lookupAnn annotations t with
  | some lab => toString c ++ " (" ++ lab ++ ")"
  | none => toString c

/-- The per-date column of the report: one display value per timeline
entry, in timeline order. -/
def processDate (rows : List ARow) (timeline : List String)
    (annotations : List (String × String)) (d : DateT) : List (String × String) :=
  timeline.map (fun t => (t, displayAt rows annotations timeline d t))

/-- `dict.fromkeys(l)` key order: keep the first occurrence of each value. -/
def dedupFirst {α : Type} [DecidableEq α] (l : List α) : List α :=
  l.foldl (fun acc x => if x ∈ acc then acc else acc ++ [x]) []

/-- Lexicographic (code-point) order on character lists — how Python
compares strings. -/
def charListLe : List Char → List Char → Bool
  | [], _ => true
  | _ :: _, [] => false
  | a :: as, b :: bs => if a = b then charListLe as bs else decide (a < b)

/-- Python string `<=`, used by `sorted(...)` on the timeline. -/
def strLeB (a b : String) : Bool := charListLe a.data b.data

/-- The proposition form of `strLeB`, the sorting relation. -/
def strLe (a b : String) : Prop := strLeB a b = true

instance : DecidableRel strLe := fun a b => decEq (strLeB a b) true

/-- Chronological order on dates as a sorting relation. -/
def dateLe (a b : DateT) : Prop := DateT.leB a b = true

instance : DecidableRel dateLe := fun a b => decEq (DateT.leB a b) true

/-- Timeline half of `save_settings` (lines 765-776): strip each entry,
keep those `datetime.strptime(t, "%H:%M")` accepts, then
`sorted(list(dict.fromkeys(good)))`.  The deduplicated list has distinct
entries, so insertion sort computes exactly Python's `sorted`. -/
def save_settings_timeline (tl : List String) : List String :=
  let good := (tl.map pyStrip).filter (fun t => (parseHM t).isSome)
  List.insertionSort strLe (dedupFirst good)

/-- `good_ann[k] = v`: Python dict assignment — overwrite the value if the
key is present, append otherwise. -/
def insertAnn (acc : List (String × String)) (k v : String) : List (String × String) :=
  if acc.any (fun p => p.1 == k) then
    acc.map (fun p => if p.1 == k then (k, v) else p)
  else acc ++ [(k, v)]

/-- One iteration of the annotation-validation loop in `save_settings`
(lines 780-787): keep a pair when the stripped key parses under `%H:%M`
and the value is a non-empty string (`if v and isinstance(v, str)` —
checked *before* stripping), storing the stripped value. -/
def annStep (acc : List (String × String)) (p : String × String) : List (String × String) :=
  if (parseHM (pyStrip p.1)).isSome ∧ p.2 ≠ "" then
    insertAnn acc (pyStrip p.1) (pyStrip p.2)
  else acc

/-- Annotation half of `save_settings` (lines 777-788). -/
def save_settings_annotations (anns : List (String × String)) : List (String × String) :=
  anns.foldl annStep []

/-- The spec's stated TimePoint well-formedness pattern,
`^([01]\d|2[0-3]):([0-5]\d)$`, written out from the spec's words for
comparison with what the code actually enforces. -/
def matchesHHMM (s : String) : Bool :=
  match s.data with
  | [h1, h2, c, m1, m2] =>
    (((h1 = '0' ∨ h1 = '1') ∧ h2.isDigit) ∨ (h1 = '2' ∧ ('0' ≤ h2 ∧ h2 ≤ '3'))) ∧
      c = ':' ∧ ('0' ≤ m1 ∧ m1 ≤ '5') ∧ m2.isDigit
  | _ => false

/-- The dedup-key fallback column list (line 119). -/
def nameFallbacks : List String := ["Name", "Name (Original Name)", "Full Name"]

/-- `clean_email` for one row (lines 113-128): prefer the `Email` column
(lowered then stripped), else the first present name column, else the row's
original index as a string (`df.index` survives `dropna` unchanged). -/
def resolveKey (cols : List String) (idx : Nat) (row : List String) : String :=
  if "Email" ∈ cols then pyStrip (pyLower (getCell cols row "Email"))
  else
    match nameFallbacks.find? (fun c => decide (c ∈ cols)) with
    | some c => pyStrip (pyLower (getCell cols row c))
    | none => toString idx

/-- The log line announcing the dedup-key choice (lines 116, 125, 128). -/
def dedupeLog (cols : List String) : String :=
  if "Email" ∈ cols then "🔑 Using 'Email' for dedupe."
  else
    match nameFallbacks.find? (fun c => decide (c ∈ cols)) with
    | some c => "🔑 Using '" ++ c ++ "' as dedupe key."
    | none => "🔑 No Email/Name — using row index."

/-- The stored outcome of a successful job (`TASK_RESULTS[task_id]`,
lines 186-191): the UI rows for the first discovered date, `str(d)` for
every discovered date, and the per-date count columns. -/
structure TaskResult where
  rows : List (String × String)
  dates : List String
  all_counts : List (String × List String)
deriving DecidableEq

/-- `process_file` from the point where the decoded table exists
(lines 94-196; reading the upload from disk is the excluded collaborator).
Log lines are modelled without their wall-clock `[HH:MM:SS]` prefix;
`fname` is the uploaded file's name and `outName` the uuid-generated
artifact path.  Returns the queue contents and the stored result
(`none` when the job failed, since `TASK_RESULTS` is only written on
success). -/
def process_table (fname outName : String) (tbl : Table) (timeline : List String)
    (annotations : List (String × String)) : List String × Option TaskResult :=
  let l1 := "✅ System: Processing " ++ fname
  let l2 := "📥 File loaded (" ++ fname ++ ")"
  let cols := (normalize_columns tbl).cols
  let l3 := "✨ Columns normalized."
  if "Join Time" ∈ cols ∧ "Leave Time" ∈ cols then
    let l4 := "⏳ Parsing Join/Leave times (dayfirst=True)..."
    let ir := tbl.rows.enum
    let parsed := ir.filterMap (fun p =>
      match parseTs (getCell cols p.2 "Join Time"), parseTs (getCell cols p.2 "Leave Time") with
      | some j, some l => some (p.1, p.2, j, l)
      | _, _ => none)
    let l5 := "🧹 Dropped " ++ toString (ir.length - parsed.length) ++ " invalid rows."
    let l6 := dedupeLog cols
    let arows := parsed.map (fun q => ARow.mk q.2.2.1 q.2.2.2 (resolveKey cols q.1 q.2.1))
    let dates := List.insertionSort dateLe (dedupFirst (arows.map (fun r => r.join.date)))
    let l7 := "📅 Dates found: " ++ String.intercalate ", " (dates.map showDate)
    if dates.isEmpty then
      ([l1, l2, l3, l4, l5, l6, l7, "❌ No valid dates found.", "FAILED"], none)
    else
      let perDate := dates.map (fun d =>
        let dayRows := arows.filter (fun r => r.join.date == d)
        (d, timeline.map (fun t => displayAt dayRows annotations timeline d t)))
      let dateLogs := perDate.flatMap (fun p =>
        ("🔎 Analyzing " ++ showDate p.1 ++ " ...") ::
          (timeline.zip p.2).map (fun q => "[ " ++ q.1 ++ " ] -> " ++ q.2))
      let counts0 := (perDate.headD (⟨0, 0, 0⟩, [])).2
      let res : TaskResult :=
        ⟨timeline.zip counts0, dates.map showDate,
          perDate.map (fun p => (showDate p.1, p.2))⟩
      ([l1, l2, l3, l4, l5, l6, l7] ++ dateLogs ++
        ["✅ Report saved to: " ++ outName, "DONE"], some res)
  else
    ([l1, l2, l3, "❌ Missing 'Join Time' or 'Leave Time'.", "FAILED"], none)

/-- The `/result/<task_id>` route (lines 739-745): `TASK_RESULTS.get` —
a 404 "no result" error when the job id has no stored result. -/
def getResult (r : Option TaskResult) : Except String TaskResult :=
  match r with
  | some d => Except.ok d
  | none => Except.error "no result"

/-! ## Helper lemmas -/

theorem mem_dedupFirst_fold {α : Type} [DecidableEq α] (l : List α) (acc : List α) (x : α) :
    x ∈ l.foldl (fun a y => if y ∈ a then a else a ++ [y]) acc ↔ x ∈ acc ∨ x ∈ l := by
  induction l generalizing acc with
  | nil => simp
  | cons a as ih =>
    simp only [List.foldl_cons]
    by_cases h : a ∈ acc
    · rw [if_pos h, ih]
      constructor
      · rintro (hx | hx)
        · exact Or.inl hx
        · exact Or.inr (List.mem_cons_of_mem _ hx)
      · rintro (hx | hx)
        · exact Or.inl hx
        · rcases List.mem_cons.mp hx with rfl | hx
          · exact Or.inl h
          · exact Or.inr hx
    · rw [if_neg h, ih]
      simp only [List.mem_append, List.mem_singleton, List.mem_cons]
      tauto

theorem mem_dedupFirst {α : Type} [DecidableEq α] (l : List α) (x : α) :
    x ∈ dedupFirst l ↔ x ∈ l := by
  unfold dedupFirst
  rw [mem_dedupFirst_fold]
  simp

theorem nodup_dedupFirst_fold {α : Type} [DecidableEq α] (l : List α) (acc : List α)
    (h : acc.Nodup) : (l.foldl (fun a y => if y ∈ a then a else a ++ [y]) acc).Nodup := by
  induction l generalizing acc with
  | nil => simpa using h
  | cons a as ih =>
    simp only [List.foldl_cons]
    by_cases ha : a ∈ acc
    · rw [if_pos ha]; exact ih _ h
    · rw [if_neg ha]
      refine ih _ (h.append (List.nodup_singleton a) ?_)
      intro x hx hx'
      rcases List.mem_singleton.mp hx' with rfl
      exact ha hx

theorem nodup_dedupFirst {α : Type} [DecidableEq α] (l : List α) : (dedupFirst l).Nodup :=
  nodup_dedupFirst_fold l [] List.nodup_nil

theorem charListLe_total : ∀ as bs : List Char, charListLe as bs = true ∨ charListLe bs as = true
  | [], _ => Or.inl rfl
  | _ :: _, [] => Or.inr rfl
  | a :: as, b :: bs => by
    by_cases h : a = b
    · subst h
      simpa [charListLe] using charListLe_total as bs
    · have h' : ¬b = a := fun e => h e.symm
      simp only [charListLe, if_neg h, if_neg h', decide_eq_true_eq]
      exact lt_or_gt_of_ne h

theorem charListLe_trans :
    ∀ as bs cs : List Char,
      charListLe as bs = true → charListLe bs cs = true → charListLe as cs = true
  | [], _, _, _, _ => rfl
  | a :: as, [], _, h, _ => by simp [charListLe] at h
  | _ :: _, _ :: _, [], _, h => by simp [charListLe] at h
  | a :: as, b :: bs, c :: cs, h1, h2 => by
    by_cases hab : a = b <;> by_cases hbc : b = c
    · subst hab; subst hbc
      simp only [charListLe, if_pos rfl] at h1 h2 ⊢
      exact charListLe_trans as bs cs h1 h2
    · subst hab
      simpa [charListLe, hbc] using h2
    · subst hbc
      simpa [charListLe, hab] using h1
    · simp only [charListLe, if_neg hab, if_neg hbc, decide_eq_true_eq] at h1 h2
      have hac : a < c := lt_trans h1 h2
      simp [charListLe, ne_of_lt hac, hac]

instance : IsTotal String strLe :=
  ⟨fun a b => charListLe_total a.data b.data⟩

instance : IsTrans String strLe :=
  ⟨fun a b c h1 h2 => charListLe_trans a.data b.data c.data h1 h2⟩

theorem Timestamp.leB_refl (a : Timestamp) : Timestamp.leB a a = true := by
  simp [Timestamp.leB]

theorem strLength_append (a b : String) : (a ++ b).length = a.length + b.length := by
  show (a.data ++ b.data).length = a.data.length + b.data.length
  exact List.length_append a.data b.data

theorem ne_of_strLength_ne {a b : String} (h : a.length ≠ b.length) : a ≠ b :=
  fun e => h (e ▸ rfl)

/-! ## Claim theorems -/

/-- Claim C1: for an (ordered, duplicate-free — the Timeline data-model
invariant) timeline, the check instant of the positionally first element is
the combined date+time plus 59 seconds, and of every other element the
combined date+time exactly. -/
theorem c1_first_point_offset (tl : List String) (d : DateT) (i : Nat) (hi : i < tl.length)
    (hnd : tl.Nodup) :
    checkInstant tl d (tl.get ⟨i, hi⟩) =
      if i = 0 then ⟨d, secsOfHM (tl.get ⟨i, hi⟩) + 59⟩
      else ⟨d, secsOfHM (tl.get ⟨i, hi⟩)⟩ := by
  cases tl with
  | nil => simp at hi
  | cons a as =>
    cases i with
    | zero => simp [checkInstant]
    | succ k =>
      have hk : k < as.length := Nat.lt_of_succ_lt_succ hi
      have hget : (a :: as).get ⟨k + 1, hi⟩ = as.get ⟨k, hk⟩ := rfl
      have hne : a ≠ as.get ⟨k, hk⟩ := by
        intro h
        exact (List.nodup_cons.mp hnd).1 (h ▸ List.get_mem as k hk)
      rw [hget, checkInstant,
        if_neg (by simp only [List.head?_cons, Option.some.injEq]; exact hne),
        if_neg (Nat.succ_ne_zero k)]

theorem c1_first_point_offset_witness :
    checkInstant ["09:00", "09:15"] ⟨2024, 4, 1⟩ "09:15" = ⟨⟨2024, 4, 1⟩, 33300⟩ := by
  have h := c1_first_point_offset ["09:00", "09:15"] ⟨2024, 4, 1⟩ 1 (by decide) (by decide)
  simpa using h

/-- Claim C10 (implicit): the 59-second offset is selected by comparing the
TimePoint's string value with the first timeline element, so any later
position holding the same string as the first element also receives the
offset. -/
theorem c10_offset_by_value (tl : List String) (d : DateT) (j : Nat) (hj : j < tl.length)
    (h0 : 0 < tl.length) (h : tl.get ⟨j, hj⟩ = tl.get ⟨0, h0⟩) :
    checkInstant tl d (tl.get ⟨j, hj⟩) = ⟨d, secsOfHM (tl.get ⟨j, hj⟩) + 59⟩ := by
  cases tl with
  | nil => simp at h0
  | cons a as =>
    have hh : (a :: as).head? = some ((a :: as).get ⟨0, h0⟩) := rfl
    rw [checkInstant, if_pos (by rw [hh, h])]

theorem c10_offset_by_value_witness :
    checkInstant ["09:00", "09:15", "09:00"] ⟨2024, 4, 1⟩ "09:00" =
      ⟨⟨2024, 4, 1⟩, 32459⟩ := by
  have h := c10_offset_by_value ["09:00", "09:15", "09:00"] ⟨2024, 4, 1⟩ 2 (by decide)
    (by decide) (by decide)
  simpa using h

/-- Claim C2: the occupancy count is the number of distinct identity keys
among the rows present at the check instant, not the number of rows; two
present rows sharing a key contribute 1, not 2. -/
theorem c2_distinct_keys (rows : List ARow) (check : Timestamp) :
    countAt rows check = ((rows.filter (isActive check)).map ARow.key).toFinset.card ∧
      ∀ r1 r2 : ARow, r1.key = r2.key → isActive check r1 = true → isActive check r2 = true →
        countAt [r1, r2] check = 1 := by
  constructor
  · rw [List.card_toFinset]
    rfl
  · intro r1 r2 hk h1 h2
    simp [countAt, h1, h2, hk, List.dedup_cons_of_mem]

theorem c2_distinct_keys_witness :
    countAt
      [⟨⟨⟨2024, 4, 1⟩, 100⟩, ⟨⟨2024, 4, 1⟩, 900⟩, "a@x.com"⟩,
        ⟨⟨⟨2024, 4, 1⟩, 200⟩, ⟨⟨2024, 4, 1⟩, 800⟩, "a@x.com"⟩]
      ⟨⟨2024, 4, 1⟩, 500⟩ = 1 :=
  (c2_distinct_keys [] ⟨⟨2024, 4, 1⟩, 500⟩).2
    ⟨⟨⟨2024, 4, 1⟩, 100⟩, ⟨⟨2024, 4, 1⟩, 900⟩, "a@x.com"⟩
    ⟨⟨⟨2024, 4, 1⟩, 200⟩, ⟨⟨2024, 4, 1⟩, 800⟩, "a@x.com"⟩
    rfl (by decide) (by decide)

/-- Claim C3: a row is counted as present at a check instant exactly when
`joinTime <= check <= leaveTime`, inclusive at both ends; in particular a
row with `joinTime = leaveTime = check` is counted. -/
theorem c3_inclusive_bounds (r : ARow) (check : Timestamp) :
    (countAt [r] check = 1 ↔
      Timestamp.leB r.join check = true ∧ Timestamp.leB check r.leave = true) ∧
      (r.join = check → r.leave = check → countAt [r] check = 1) := by
  have hiff : isActive check r = true ↔
      Timestamp.leB r.join check = true ∧ Timestamp.leB check r.leave = true := by
    simp [isActive, Bool.and_eq_true]
  have base : countAt [r] check = if isActive check r = true then 1 else 0 := by
    by_cases h : isActive check r = true
    · simp [countAt, List.filter_cons, h]
    · simp [countAt, List.filter_cons, h]
  constructor
  · constructor
    · intro h1
      rw [base] at h1
      by_cases h : isActive check r = true
      · exact hiff.mp h
      · rw [if_neg h] at h1
        exact absurd h1 (by decide)
    · intro h2
      rw [base, if_pos (hiff.mpr h2)]
  · intro h1 h2
    rw [base, if_pos (hiff.mpr ⟨h1 ▸ Timestamp.leB_refl check, h2 ▸ Timestamp.leB_refl check⟩)]

theorem c3_inclusive_bounds_witness :
    countAt [⟨⟨⟨2024, 4, 1⟩, 500⟩, ⟨⟨2024, 4, 1⟩, 500⟩, "a@x.com"⟩] ⟨⟨2024, 4, 1⟩, 500⟩ = 1 :=
  (c3_inclusive_bounds ⟨⟨⟨2024, 4, 1⟩, 500⟩, ⟨⟨2024, 4, 1⟩, 500⟩, "a@x.com"⟩
    ⟨⟨2024, 4, 1⟩, 500⟩).2 rfl rfl

theorem mem_save_settings_timeline (tl : List String) (s : String) :
    s ∈ save_settings_timeline tl ↔
      (parseHM s).isSome = true ∧ ∃ t ∈ tl, pyStrip t = s := by
  simp only [save_settings_timeline]
  rw [(List.perm_insertionSort strLe _).mem_iff, mem_dedupFirst]
  simp only [List.mem_filter, List.mem_map]
  constructor
  · rintro ⟨⟨t, ht, rfl⟩, hp⟩
    exact ⟨hp, t, ht, rfl⟩
  · rintro ⟨hp, t, ht, rfl⟩
    exact ⟨⟨t, ht, rfl⟩, hp⟩

/-- Claim C4 counterexample: the server-side validator is
`datetime.strptime(t, "%H:%M")`, which accepts the single-digit hour
`"9:05"`; the stored timeline then contains a string that fails the spec's
pattern `([01]\d|2[0-3]):([0-5]\d)` anchored at both ends. -/
theorem c4_counterexample :
    "9:05" ∈ save_settings_timeline ["9:05"] ∧ matchesHHMM "9:05" = false := by decide

/-- Claim C4 (amended): the stored timeline after a write contains exactly
the stripped entries the `%H:%M` parser accepts (one- or two-digit hour
`0..23` and minute `0..59` — a superset of the spec's zero-padded pattern),
deduplicated and sorted ascending lexicographically; a malformed entry such
as `"25:61"` is silently dropped and never stored, and the write never
fails. -/
theorem c4_timeline_sanitized (tl : List String) :
    (save_settings_timeline tl).Sorted strLe ∧
    (save_settings_timeline tl).Nodup ∧
    (∀ s ∈ save_settings_timeline tl, (parseHM s).isSome = true ∧ ∃ t ∈ tl, pyStrip t = s) ∧
    (∀ t ∈ tl, (parseHM (pyStrip t)).isSome = true → pyStrip t ∈ save_settings_timeline tl) ∧
    "25:61" ∉ save_settings_timeline tl := by
  refine ⟨List.sorted_insertionSort strLe _,
    ((List.perm_insertionSort strLe _).nodup_iff).mpr (nodup_dedupFirst _), ?_, ?_, ?_⟩
  · intro s hs
    exact (mem_save_settings_timeline tl s).mp hs
  · intro t ht hp
    exact (mem_save_settings_timeline tl _).mpr ⟨hp, t, ht, rfl⟩
  · intro hmem
    have h := ((mem_save_settings_timeline tl _).mp hmem).1
    exact absurd h (by decide)

theorem c4_timeline_sanitized_witness :
    "10:00" ∈ save_settings_timeline ["25:61", " 10:00"] :=
  have h := (c4_timeline_sanitized ["25:61", " 10:00"]).2.2.2.1 " 10:00"
    (by decide) (by decide)
  h

theorem mem_insertAnn (acc : List (String × String)) (k v : String) (p : String × String)
    (hp : p ∈ insertAnn acc k v) : p = (k, v) ∨ p ∈ acc := by
  unfold insertAnn at hp
  by_cases h : acc.any (fun q => q.1 == k)
  · rw [if_pos h] at hp
    rcases List.mem_map.mp hp with ⟨q, hq, hq2⟩
    by_cases hqk : (q.1 == k) = true
    · rw [if_pos hqk] at hq2
      exact Or.inl hq2.symm
    · rw [if_neg hqk] at hq2
      exact Or.inr (hq2 ▸ hq)
  · rw [if_neg h] at hp
    rcases List.mem_append.mp hp with h1 | h1
    · exact Or.inr h1
    · exact Or.inl (List.mem_singleton.mp h1)

theorem key_mem_insertAnn_self (acc : List (String × String)) (k v : String) :
    ∃ w, (k, w) ∈ insertAnn acc k v := by
  unfold insertAnn
  by_cases h : acc.any (fun q => q.1 == k)
  · rw [if_pos h]
    rcases List.any_eq_true.mp h with ⟨q, hq, hqk⟩
    exact ⟨v, List.mem_map.mpr ⟨q, hq, by rw [if_pos hqk]⟩⟩
  · rw [if_neg h]
    exact ⟨v, List.mem_append.mpr (Or.inr (List.mem_singleton.mpr rfl))⟩

theorem key_mem_insertAnn_of_mem (acc : List (String × String)) (k v k' : String)
    (h : ∃ w, (k', w) ∈ acc) : ∃ w, (k', w) ∈ insertAnn acc k v := by
  rcases h with ⟨w, hw⟩
  by_cases hk : k' = k
  · subst hk
    exact key_mem_insertAnn_self acc k' v
  · unfold insertAnn
    by_cases hany : acc.any (fun q => q.1 == k)
    · rw [if_pos hany]
      refine ⟨w, List.mem_map.mpr ⟨(k', w), hw, ?_⟩⟩
      rw [if_neg (by simpa using hk)]
    · rw [if_neg hany]
      exact ⟨w, List.mem_append.mpr (Or.inl hw)⟩

theorem ann_fold_sound (l : List (String × String)) (acc : List (String × String))
    (p : String × String) (hp : p ∈ l.foldl annStep acc) :
    p ∈ acc ∨ ((parseHM p.1).isSome = true ∧
      ∃ q ∈ l, pyStrip q.1 = p.1 ∧ q.2 ≠ "" ∧ p.2 = pyStrip q.2) := by
  induction l generalizing acc with
  | nil => exact Or.inl hp
  | cons a as ih =>
    rcases ih (annStep acc a) hp with h1 | h1
    · unfold annStep at h1
      by_cases hc : (parseHM (pyStrip a.1)).isSome = true ∧ a.2 ≠ ""
      · rw [if_pos hc] at h1
        rcases mem_insertAnn _ _ _ _ h1 with h2 | h2
        · rcases h2 with rfl
          exact Or.inr ⟨hc.1, a, List.mem_cons_self a as, rfl, hc.2, rfl⟩
        · exact Or.inl h2
      · rw [if_neg hc] at h1
        exact Or.inl h1
    · rcases h1 with ⟨hp1, q, hq, rest⟩
      exact Or.inr ⟨hp1, q, List.mem_cons_of_mem a hq, rest⟩

theorem ann_fold_keys (l : List (String × String)) (acc : List (String × String)) (k : String)
    (h : (∃ w, (k, w) ∈ acc) ∨
      ∃ q ∈ l, pyStrip q.1 = k ∧ (parseHM k).isSome = true ∧ q.2 ≠ "") :
    ∃ w, (k, w) ∈ l.foldl annStep acc := by
  induction l generalizing acc with
  | nil =>
    rcases h with h | ⟨q, hq, _⟩
    · exact h
    · exact absurd hq (List.not_mem_nil q)
  | cons a as ih =>
    apply ih
    rcases h with h | ⟨q, hq, hqs, hqp, hqn⟩
    · left
      unfold annStep
      by_cases hc : (parseHM (pyStrip a.1)).isSome = true ∧ a.2 ≠ ""
      · rw [if_pos hc]
        exact key_mem_insertAnn_of_mem _ _ _ _ h
      · rw [if_neg hc]
        exact h
    · rcases List.mem_cons.mp hq with rfl | hq'
      · left
        unfold annStep
        rw [if_pos ⟨by rwa [hqs], hqn⟩]
        exact hqs ▸ key_mem_insertAnn_self acc (pyStrip q.1) (pyStrip q.2)
      · right
        exact ⟨q, hq', hqs, hqp, hqn⟩

/-- Claim C5 counterexample: the value check is `if v` *before* stripping,
so the all-blank label `" "` passes it and is stored as the *empty* trimmed
string — a pair whose label has no non-empty trimmed value is stored,
contradicting the claimed iff. -/
theorem c5_counterexample :
    save_settings_annotations [("09:00", " ")] = [("09:00", "")] ∧ pyStrip " " = "" := by
  decide

/-- Claim C5 (amended): a pair is stored iff its stripped key parses under
the `%H:%M` parser (lenient: one- or two-digit fields, a superset of the
spec's zero-padded pattern) and its label is non-empty *before* trimming;
the stored label is the trimmed value, which may be empty.  No error is
ever raised: the write is a total function on the submitted map. -/
theorem c5_annotations_sanitized (anns : List (String × String)) :
    (∀ p ∈ save_settings_annotations anns, (parseHM p.1).isSome = true ∧
        ∃ q ∈ anns, pyStrip q.1 = p.1 ∧ q.2 ≠ "" ∧ p.2 = pyStrip q.2) ∧
    (∀ q ∈ anns, (parseHM (pyStrip q.1)).isSome = true → q.2 ≠ "" →
        ∃ w, (pyStrip q.1, w) ∈ save_settings_annotations anns) := by
  constructor
  · intro p hp
    rcases ann_fold_sound anns [] p hp with h | h
    · exact absurd h (List.not_mem_nil p)
    · exact h
  · intro q hq hqp hqn
    exact ann_fold_keys anns [] (pyStrip q.1) (Or.inr ⟨q, hq, rfl, hqp, hqn⟩)

theorem c5_annotations_sanitized_witness :
    ∃ w, ("09:00", w) ∈ save_settings_annotations [(" 09:00", "Break starts")] :=
  have h := (c5_annotations_sanitized [(" 09:00", "Break starts")]).2
    (" 09:00", "Break starts") (by decide) (by decide) (by decide)
  h

/-- Claim C6: the dedup-key resolver's precedence — `Email` first, then the
first existing column among `Name`, `Name (Original Name)`, `Full Name`
(all lower-cased then trimmed), else the row's ordinal position as a
string, in which case no error is raised and the fallback is reported by an
informational log line (which, in particular, is not the failure
sentinel). -/
theorem c6_dedup_key_precedence (cols : List String) (idx : Nat) (row : List String) :
    ("Email" ∈ cols → resolveKey cols idx row = pyStrip (pyLower (getCell cols row "Email"))) ∧
    ("Email" ∉ cols → "Name" ∈ cols →
        resolveKey cols idx row = pyStrip (pyLower (getCell cols row "Name"))) ∧
    ("Email" ∉ cols → "Name" ∉ cols → "Name (Original Name)" ∈ cols →
        resolveKey cols idx row =
          pyStrip (pyLower (getCell cols row "Name (Original Name)"))) ∧
    ("Email" ∉ cols → "Name" ∉ cols → "Name (Original Name)" ∉ cols → "Full Name" ∈ cols →
        resolveKey cols idx row = pyStrip (pyLower (getCell cols row "Full Name"))) ∧
    ("Email" ∉ cols → "Name" ∉ cols → "Name (Original Name)" ∉ cols → "Full Name" ∉ cols →
        resolveKey cols idx row = toString idx ∧
          dedupeLog cols = "🔑 No Email/Name — using row index." ∧
          dedupeLog cols ≠ "FAILED") := by
  refine ⟨?_, ?_, ?_, ?_, ?_⟩
  · intro h1
    simp [resolveKey, h1]
  · intro h1 h2
    simp [resolveKey, nameFallbacks, List.find?_cons, h1, h2]
  · intro h1 h2 h3
    simp [resolveKey, nameFallbacks, List.find?_cons, h1, h2, h3]
  · intro h1 h2 h3 h4
    simp [resolveKey, nameFallbacks, List.find?_cons, h1, h2, h3, h4]
  · intro h1 h2 h3 h4
    refine ⟨?_, ?_, ?_⟩
    · simp [resolveKey, nameFallbacks, List.find?_cons, h1, h2, h3, h4]
    · simp [dedupeLog, nameFallbacks, List.find?_cons, h1, h2, h3, h4]
    · have h : dedupeLog cols = "🔑 No Email/Name — using row index." := by
        simp [dedupeLog, nameFallbacks, List.find?_cons, h1, h2, h3, h4]
      rw [h]
      decide

theorem c6_dedup_key_precedence_witness :
    resolveKey ["Attended"] 3 ["Yes"] = toString 3 ∧
      dedupeLog ["Attended"] = "🔑 No Email/Name — using row index." ∧
      dedupeLog ["Attended"] ≠ "FAILED" :=
  (c6_dedup_key_precedence ["Attended"] 3 ["Yes"]).2.2.2.2
    (by decide) (by decide) (by decide) (by decide)

/-- Claim C7: the annotation overlay is pure display — for the same rows,
timeline and date, the run with annotations and the run with the empty
annotation map agree pointwise on the TimePoint, the empty-map run shows
the bare numeral of a count, and the annotated run shows that same numeral,
suffixed with ` (label)` exactly when the TimePoint has an annotation.
Replacing the annotation map by the empty map therefore never changes a
numeric count, only display strings. -/
theorem c7_annotations_pure_display (rows : List ARow) (tl : List String)
    (anns : List (String × String)) (d : DateT) :
    List.Forall₂
      (fun p q : String × String => p.1 = q.1 ∧ ∃ c : Nat, q.2 = toString c ∧
        p.2 = match lookupAnn anns p.1 with
          | some lab => toString c ++ " (" ++ lab ++ ")"
          | none => toString c)
      (processDate rows tl anns d) (processDate rows tl [] d) := by
  unfold processDate
  rw [List.forall₂_map_left_iff, List.forall₂_map_right_iff, List.forall₂_same]
  intro t ht
  refine ⟨rfl, countAt rows (checkInstant tl d t), ?_, ?_⟩
  · simp [displayAt, lookupAnn]
  · cases h : lookupAnn anns t <;> simp [displayAt, h]

/-- Claim C8: `Join Time`/`Leave Time` parse day-first (`"03/04/2024"` is
3 April), and the single-row end-to-end example stores the result rows
`[("09:00","1"), ("10:00","1"), ("13:00","0")]`. -/
theorem c8_end_to_end :
    parseTs "03/04/2024 09:00" = some ⟨⟨2024, 4, 3⟩, 32400⟩ ∧
    (process_table "report.csv" "out.csv"
        ⟨["Email", "Join Time", "Leave Time"],
          [["a@x.com", "01/04/2024 09:00", "01/04/2024 12:00"]]⟩
        ["09:00", "10:00", "13:00"] []).2 =
      some ⟨[("09:00", "1"), ("10:00", "1"), ("13:00", "0")], ["2024-04-01"],
        [("2024-04-01", ["1", "1", "0"])]⟩ :=
  ⟨by decide, by decide⟩

theorem processing_line_ne_failed (fname : String) :
    ("✅ System: Processing " ++ fname) ≠ "FAILED" := by
  apply ne_of_strLength_ne
  rw [strLength_append]
  have h1 : ("✅ System: Processing ").length = 21 := by decide
  have h2 : ("FAILED").length = 6 := by decide
  rw [h1, h2]
  omega

theorem loaded_line_ne_failed (fname : String) :
    ("📥 File loaded (" ++ fname ++ ")") ≠ "FAILED" := by
  apply ne_of_strLength_ne
  rw [strLength_append, strLength_append]
  have h1 : ("📥 File loaded (").length = 15 := by decide
  have h2 : (")").length = 1 := by decide
  have h3 : ("FAILED").length = 6 := by decide
  rw [h1, h2, h3]
  omega

/-- Claim C9: when, after header normalization, `Join Time` or `Leave Time`
is missing, the job's log channel ends with the sentinel `"FAILED"`,
appended exactly once with no line after it, no result is stored, and the
result lookup fails with the not-found error (the job never reaches
`DONE`). -/
theorem c9_missing_columns (fname outName : String) (tbl : Table) (tl : List String)
    (anns : List (String × String))
    (h : ¬("Join Time" ∈ (normalize_columns tbl).cols ∧
        "Leave Time" ∈ (normalize_columns tbl).cols)) :
    (process_table fname outName tbl tl anns).1.getLast? = some "FAILED" ∧
    (process_table fname outName tbl tl anns).1.count "FAILED" = 1 ∧
    (process_table fname outName tbl tl anns).2 = none ∧
    getResult (process_table fname outName tbl tl anns).2 = Except.error "no result" := by
  have hbody :
      process_table fname outName tbl tl anns =
        (["✅ System: Processing " ++ fname, "📥 File loaded (" ++ fname ++ ")",
          "✨ Columns normalized.", "❌ Missing 'Join Time' or 'Leave Time'.", "FAILED"],
          none) := by
    unfold process_table
    rw [if_neg h]
  rw [hbody]
  refine ⟨rfl, ?_, rfl, rfl⟩
  simp [List.count_cons, processing_line_ne_failed fname, loaded_line_ne_failed fname]

theorem c9_missing_columns_witness :
    (process_table "f.csv" "o.csv" ⟨["Email", "Join Time"], [["a", "b"]]⟩ [] []).1.getLast? =
        some "FAILED" ∧
      (process_table "f.csv" "o.csv" ⟨["Email", "Join Time"], [["a", "b"]]⟩ [] []).1.count
          "FAILED" = 1 ∧
      (process_table "f.csv" "o.csv" ⟨["Email", "Join Time"], [["a", "b"]]⟩ [] []).2 = none ∧
      getResult (process_table "f.csv" "o.csv" ⟨["Email", "Join Time"], [["a", "b"]]⟩ [] []).2 =
        Except.error "no result" :=
  c9_missing_columns "f.csv" "o.csv" ⟨["Email", "Join Time"], [["a", "b"]]⟩ [] [] (by decide)
